import Mathlib

/-!
Shallow embedding of the data-combination and statistical-comparison core of
the solar-challenge repository (`src/country_comparision_utils.py`,
`app/utils.py`), together with theorems settling the frozen claims about it.

Modelling conventions:
* A pandas cell value is `Val` (a string or an exact rational standing for a
  float); a missing cell (NaN / absent column) is the absence of the key in a
  row's association list.
* A `DataFrame` is a column-name list (column order), an index list and a row
  list.  `ignore_index=True` concatenation rebuilds the index as `0..n-1`.
* Python's dynamic typing at the validation sites is modelled by `PyObj`.
* Fallible calls return `Except String`; the source's `try/except ... return
  None` wrappers are modelled by collapsing the `Except` to an `Option`.
-/

namespace Solar

/-- A non-missing pandas cell value: a string label or a numeric value
(floats are modelled as exact rationals). -/
inductive Val
  | str (s : String)
  | num (x : ℚ)
deriving DecidableEq, Repr

/-- A row: an association list from column name to (non-missing) value.
A column absent from the list is a missing value (NaN) in that row. -/
abbrev Row := List (String × Val)

/-- Cell access: the first binding of the column, `none` when missing. -/
def Row.get : Row → String → Option Val
  | [], _ => none
  | p :: ps, c => if p.1 = c then some p.2 else Row.get ps c

/-- Remove every binding of a column from a row. -/
def Row.erase : Row → String → Row
  | [], _ => []
  | p :: ps, c => if p.1 = c then Row.erase ps c else p :: Row.erase ps c

/-- Column assignment on one row (`row[c] = v`). -/
def Row.set (r : Row) (c : String) (v : Val) : Row :=
  Row.erase r c ++ [(c, v)]

/-- A pandas DataFrame: ordered column names, row index, rows. -/
structure DataFrame where
  cols : List String
  idx : List Nat
  rows : List Row
deriving DecidableEq, Repr

/-- Pandas `df.empty`: true when either axis has length 0. -/
def DataFrame.empty (d : DataFrame) : Bool :=
  d.rows.isEmpty || d.cols.isEmpty

/-- Well-formedness: every binding in every row is for a declared column. -/
def DataFrame.wf (d : DataFrame) : Bool :=
  d.rows.all (fun r => r.all (fun p => p.1 ∈ d.cols))

/-- Column assignment `df[c] = v` with a constant value: set the cell in every row; a new
column name is appended to the column order. -/
def DataFrame.setConstCol (d : DataFrame) (c : String) (v : Val) : DataFrame :=
  { cols := if c ∈ d.cols then d.cols else d.cols ++ [c]
    idx := d.idx
    rows := d.rows.map (fun r => Row.set r c v) }

/-- Fold one column name into an accumulated union, keeping first-appearance
order (pandas `concat` column alignment with `sort=False`). -/
def insertCol (acc : List String) (c : String) : List String :=
  if c ∈ acc then acc else acc ++ [c]

/-- Union of the column lists of several frames, in order of appearance. -/
def unionCols (dfs : List DataFrame) : List String :=
  dfs.foldl (fun acc d => d.cols.foldl insertCol acc) []

/-- Pandas `pd.concat(dfs, ignore_index=True)`: raises on an empty list, otherwise
aligns columns by name, stacks the rows and rebuilds the index as `0..n-1`. -/
def pdConcat (dfs : List DataFrame) : Except String DataFrame :=
  if dfs.isEmpty then .error "No objects to concatenate"
  else .ok
    { cols := unionCols dfs
      idx := List.range ((dfs.map (fun d => d.rows.length)).sum)
      rows := (dfs.map DataFrame.rows).flatten }

/-- A Python object at the dynamically-checked entry points. -/
inductive PyObj
  | str (s : String)
  | int (n : Int)
  | df (d : DataFrame)
  | pyNone
deriving DecidableEq, Repr

/-- Python `isinstance(x, str)`. -/
def PyObj.isStr : PyObj → Bool
  | .str _ => true
  | _ => false

/-- Python `isinstance(x, pd.DataFrame)`. -/
def PyObj.isDf : PyObj → Bool
  | .df _ => true
  | _ => false

/-- The validation loop of `ComparisionUtils.combine_country_data`: check each
entry (key a string, value a DataFrame, DataFrame non-empty, in that order),
and tag a working copy of each table with its `country` column. -/
def tagEntries : List (PyObj × PyObj) → Except String (List DataFrame)
  | [] => .ok []
  | (k, v) :: rest =>
    match k with
    | .str country =>
      match v with
      | .df d =>
        if d.empty then .error ("DataFrame for " ++ country ++ " is empty.")
        else
          match tagEntries rest with
          | .ok ds => .ok (d.setConstCol "country" (.str country) :: ds)
          | .error e => .error e
      | _ => .error "Value must be a pandas DataFrame."
    | _ => .error "Country name must be a string."

/-- The method `ComparisionUtils.combine_country_data`: validate and tag every entry,
then concatenate with `ignore_index=True`.  The source's `except ... raise`
re-raises, so errors propagate to the caller. -/
def combine_country_data (l : List (PyObj × PyObj)) : Except String DataFrame :=
  match tagEntries l with
  | .ok dfs => pdConcat dfs
  | .error e => .error e

/-- A typed sites-to-tables mapping, injected into the dynamic entry type. -/
def toPyEntries (l : List (String × DataFrame)) : List (PyObj × PyObj) :=
  l.map (fun e => (.str e.1, .df e.2))

/-- One contributing table after tagging with its site name. -/
def taggedDf (e : String × DataFrame) : DataFrame :=
  e.2.setConstCol "country" (.str e.1)

/-- Closed form of a successful combine over a typed mapping. -/
def combinedForm (l : List (String × DataFrame)) : DataFrame :=
  { cols := unionCols (l.map taggedDf)
    idx := List.range ((l.map (fun e => e.2.rows.length)).sum)
    rows := (l.map (fun e => e.2.rows.map (fun r => Row.set r "country" (.str e.1)))).flatten }

/-- The precondition violation (if any) of one mapping entry, with the error
message the source raises for it; checks are in source order. -/
def entryError : PyObj × PyObj → Option String
  | (.str s, .df d) =>
      if d.empty then some ("DataFrame for " ++ s ++ " is empty.") else none
  | (.str _, _) => some "Value must be a pandas DataFrame."
  | _ => some "Country name must be a string."

instance {ε α : Type} [DecidableEq ε] [DecidableEq α] : DecidableEq (Except ε α) := fun x y =>
  match x, y with
  | .ok a, .ok b =>
      if h : a = b then isTrue (by rw [h]) else isFalse (fun hc => by cases hc; exact h rfl)
  | .error a, .error b =>
      if h : a = b then isTrue (by rw [h]) else isFalse (fun hc => by cases hc; exact h rfl)
  | .ok _, .error _ => isFalse (fun hc => by cases hc)
  | .error _, .ok _ => isFalse (fun hc => by cases hc)

/-! ### Basic lemmas about rows and column unions -/

theorem Row.get_set_self (r : Row) (c : String) (v : Val) :
    Row.get (Row.set r c v) c = some v := by
  unfold Row.set
  induction r with
  | nil => simp [Row.erase, Row.get]
  | cons p ps ih =>
    by_cases h : p.1 = c
    · simpa [Row.erase, h] using ih
    · simpa [Row.erase, h, Row.get] using ih

theorem Row.get_set_ne (r : Row) {c c2 : String} (v : Val) (h : c2 ≠ c) :
    Row.get (Row.set r c v) c2 = Row.get r c2 := by
  unfold Row.set
  induction r with
  | nil =>
    simp only [Row.erase, List.nil_append, Row.get]
    rw [if_neg (fun hc : c = c2 => h hc.symm)]
  | cons p ps ih =>
    by_cases hp : p.1 = c
    · have hp2 : ¬ p.1 = c2 := by rw [hp]; exact fun hc => h hc.symm
      simp only [Row.erase, if_pos hp, Row.get, if_neg hp2]
      exact ih
    · simp only [Row.erase, if_neg hp, List.cons_append, Row.get]
      by_cases hp2 : p.1 = c2
      · simp [hp2]
      · simp only [if_neg hp2]
        exact ih

theorem Row.get_eq_none (r : Row) (c : String) (h : ∀ p ∈ r, p.1 ≠ c) :
    Row.get r c = none := by
  induction r with
  | nil => rfl
  | cons p ps ih =>
    simp only [Row.get, h p (by simp), if_false, reduceIte]
    exact ih (fun q hq => h q (by simp [hq]))

theorem mem_foldl_insertCol (cs : List String) (acc : List String) (c : String) :
    c ∈ cs.foldl insertCol acc ↔ c ∈ acc ∨ c ∈ cs := by
  induction cs generalizing acc with
  | nil => simp
  | cons a as ih =>
    simp only [List.foldl_cons, ih, insertCol]
    by_cases h : a ∈ acc
    · simp only [if_pos h, List.mem_cons]
      constructor
      · rintro (hc | hc)
        · exact Or.inl hc
        · exact Or.inr (Or.inr hc)
      · rintro (hc | hc | hc)
        · exact Or.inl hc
        · exact Or.inl (hc ▸ h)
        · exact Or.inr hc
    · simp only [if_neg h, List.mem_append, List.mem_singleton, List.mem_cons]
      tauto

theorem mem_unionCols (dfs : List DataFrame) (c : String) :
    c ∈ unionCols dfs ↔ ∃ d ∈ dfs, c ∈ d.cols := by
  unfold unionCols
  suffices h : ∀ acc : List String,
      c ∈ dfs.foldl (fun acc d => d.cols.foldl insertCol acc) acc ↔
        c ∈ acc ∨ ∃ d ∈ dfs, c ∈ d.cols by
    simpa using h []
  induction dfs with
  | nil => simp
  | cons d ds ih =>
    intro acc
    simp only [List.foldl_cons, ih, mem_foldl_insertCol]
    constructor
    · rintro ((hc | hc) | ⟨d2, hd2, hc⟩)
      · exact Or.inl hc
      · exact Or.inr ⟨d, by simp, hc⟩
      · exact Or.inr ⟨d2, by simp [hd2], hc⟩
    · rintro (hc | ⟨d2, hd2, hc⟩)
      · exact Or.inl (Or.inl hc)
      · rcases List.mem_cons.mp hd2 with h2 | h2
        · exact Or.inl (Or.inr (h2 ▸ hc))
        · exact Or.inr ⟨d2, h2, hc⟩

theorem mem_taggedDf_cols (e : String × DataFrame) (c : String) :
    c ∈ (taggedDf e).cols ↔ c = "country" ∨ c ∈ e.2.cols := by
  simp only [taggedDf, DataFrame.setConstCol]
  by_cases h : "country" ∈ e.2.cols
  · simp only [if_pos h]
    constructor
    · exact fun hc => Or.inr hc
    · rintro (hc | hc)
      · exact hc ▸ h
      · exact hc
  · simp only [if_neg h, List.mem_append, List.mem_singleton]
    tauto

/-! ### Lemmas about the validation loop -/

theorem tagEntries_toPyEntries (l : List (String × DataFrame))
    (h : ∀ e ∈ l, e.2.empty = false) :
    tagEntries (toPyEntries l) = .ok (l.map taggedDf) := by
  induction l with
  | nil => rfl
  | cons e es ih =>
    have he : e.2.empty = false := h e (by simp)
    have ihe := ih (fun x hx => h x (by simp [hx]))
    simp only [toPyEntries, List.map_cons] at ihe ⊢
    simp only [tagEntries, he, Bool.false_eq_true, if_false, reduceIte, ihe]
    rfl

theorem tagEntries_length (l : List (PyObj × PyObj)) (ds : List DataFrame)
    (h : tagEntries l = .ok ds) : ds.length = l.length := by
  induction l generalizing ds with
  | nil => cases h; rfl
  | cons e es ih =>
    obtain ⟨k, v⟩ := e
    cases k <;> simp only [tagEntries] at h <;> try cases h
    case str s =>
      cases v <;> try cases h
      case df d =>
        by_cases hd : d.empty
        · simp [hd] at h
        · simp only [hd, Bool.false_eq_true, if_false, reduceIte] at h
          cases hr : tagEntries es with
          | ok ds2 => rw [hr] at h; cases h; simpa using ih ds2 hr
          | error e2 => rw [hr] at h; cases h

theorem tagEntries_isOk (l : List (PyObj × PyObj)) :
    (tagEntries l).isOk = l.all (fun e => (entryError e).isNone) := by
  induction l with
  | nil => rfl
  | cons e es ih =>
    obtain ⟨k, v⟩ := e
    rw [List.all_cons]
    cases k
    case str s =>
      cases v
      case df d =>
        by_cases hd : d.empty
        · simp [tagEntries, entryError, hd, Except.isOk, Except.toBool]
        · simp only [tagEntries, entryError, hd, Bool.false_eq_true, if_false, reduceIte,
            Option.isNone_none, Bool.true_and]
          cases hr : tagEntries es with
          | ok ds2 =>
            rw [hr] at ih
            simpa [Except.isOk, Except.toBool] using ih
          | error e2 =>
            rw [hr] at ih
            simpa [Except.isOk, Except.toBool] using ih
      all_goals simp [tagEntries, entryError, Except.isOk, Except.toBool]
    all_goals simp [tagEntries, entryError, Except.isOk, Except.toBool]

theorem tagEntries_error_first_violation (l₁ : List (PyObj × PyObj)) (e : PyObj × PyObj)
    (l₂ : List (PyObj × PyObj)) (m : String)
    (h₁ : ∀ x ∈ l₁, entryError x = none) (h₂ : entryError e = some m) :
    tagEntries (l₁ ++ e :: l₂) = .error m := by
  induction l₁ with
  | nil =>
    obtain ⟨k, v⟩ := e
    cases k <;> simp only [entryError] at h₂ <;> try (cases h₂; rfl)
    case str s =>
      cases v <;> simp only [entryError] at h₂ <;> try (cases h₂; rfl)
      case df d =>
        by_cases hd : d.empty
        · simp only [if_pos hd] at h₂
          cases h₂
          simp [tagEntries, hd]
        · simp [hd] at h₂
  | cons x xs ih =>
    have hx : entryError x = none := h₁ x (by simp)
    obtain ⟨k, v⟩ := x
    cases k <;> simp only [entryError] at hx <;> try cases hx
    case str s =>
      cases v <;> simp only [entryError] at hx <;> try cases hx
      case df d =>
        by_cases hd : d.empty
        · simp [hd] at hx
        · have ihx := ih (fun y hy => h₁ y (by simp [hy]))
          simp [tagEntries, hd, ihx]

/-- A successful combine over a typed non-empty mapping of non-empty tables
computes the closed form `combinedForm`. -/
theorem pdConcat_tagged (l : List (String × DataFrame)) (hne : l ≠ []) :
    pdConcat (l.map taggedDf) = .ok (combinedForm l) := by
  unfold pdConcat
  have hne2 : (l.map taggedDf).isEmpty = false := by
    cases l with
    | nil => exact absurd rfl hne
    | cons a as => rfl
  rw [hne2]
  simp only [Bool.false_eq_true, if_false, reduceIte]
  unfold combinedForm
  have h1 : ((fun d : DataFrame => d.rows.length) ∘ taggedDf)
      = fun e : String × DataFrame => e.2.rows.length := by
    funext e
    simp [taggedDf, DataFrame.setConstCol]
  have h2 : (DataFrame.rows ∘ taggedDf)
      = fun e : String × DataFrame => e.2.rows.map (fun r => Row.set r "country" (.str e.1)) := by
    funext e
    simp [taggedDf, DataFrame.setConstCol]
  simp only [List.map_map, h1, h2]

theorem combine_toPyEntries (l : List (String × DataFrame)) (hne : l ≠ [])
    (h : ∀ e ∈ l, e.2.empty = false) :
    combine_country_data (toPyEntries l) = .ok (combinedForm l) := by
  unfold combine_country_data
  rw [tagEntries_toPyEntries l h]
  show pdConcat (l.map taggedDf) = .ok (combinedForm l)
  exact pdConcat_tagged l hne

theorem combinedForm_rows_length (l : List (String × DataFrame)) :
    (combinedForm l).rows.length = (l.map (fun e => e.2.rows.length)).sum := by
  simp only [combinedForm, List.length_flatten, List.map_map]
  have h1 : (List.length ∘ fun e : String × DataFrame =>
      e.2.rows.map (fun r => Row.set r "country" (.str e.1)))
      = fun e : String × DataFrame => e.2.rows.length := by
    funext e
    simp
  rw [h1]

theorem combinedForm_country_values (l : List (String × DataFrame))
    (hv : ∀ e ∈ l, e.2.empty = false) (s : String) :
    (∃ r ∈ (combinedForm l).rows, Row.get r "country" = some (.str s)) ↔
      s ∈ l.map Prod.fst := by
  constructor
  · rintro ⟨r, hr, hget⟩
    simp only [combinedForm, List.mem_flatten] at hr
    obtain ⟨block, hblock, hrb⟩ := hr
    obtain ⟨e, he, rfl⟩ := List.mem_map.mp hblock
    obtain ⟨r0, _, rfl⟩ := List.mem_map.mp hrb
    rw [Row.get_set_self] at hget
    have : e.1 = s := by injection hget with h2; injection h2
    exact List.mem_map.mpr ⟨e, he, this⟩
  · intro hs
    obtain ⟨e, he, rfl⟩ := List.mem_map.mp hs
    have hrows : e.2.rows.isEmpty = false := by
      have := hv e he
      unfold DataFrame.empty at this
      exact (Bool.or_eq_false_iff.mp this).1
    cases hr : e.2.rows with
    | nil => rw [hr] at hrows; simp at hrows
    | cons r0 rest =>
      refine ⟨Row.set r0 "country" (.str e.1), ?_, Row.get_set_self r0 _ _⟩
      simp only [combinedForm, List.mem_flatten]
      refine ⟨e.2.rows.map (fun r => Row.set r "country" (.str e.1)), ?_, ?_⟩
      · exact List.mem_map.mpr ⟨e, he, rfl⟩
      · exact List.mem_map.mpr ⟨r0, by rw [hr]; simp, rfl⟩

/-- C1 (amended): for every *non-empty* typed mapping of string site names to
non-empty well-formed tables, `combine_country_data` returns the unified
table: row count is the sum of the inputs' row counts; the index is rebuilt
sequentially with no gaps or duplicates; rows are the per-site blocks in
mapping order, each block keeping the site's row order and carrying the site
name in its `country` cell; the `country` value set is exactly the site-name
set; the column set is the union of the inputs' columns plus `country`; and a
row from a table lacking a column reads as a missing value there, never as a
zero or empty string. -/
theorem combine_valid_mapping_characterization
    (l : List (String × DataFrame))
    (hne : l ≠ [])
    (hv : ∀ e ∈ l, e.2.empty = false)
    (hwf : ∀ e ∈ l, e.2.wf = true) :
    combine_country_data (toPyEntries l) = .ok (combinedForm l) ∧
    (combinedForm l).rows.length = (l.map (fun e => e.2.rows.length)).sum ∧
    (combinedForm l).idx = List.range ((combinedForm l).rows.length) ∧
    (combinedForm l).idx.Nodup ∧
    (combinedForm l).rows
      = (l.map (fun e => e.2.rows.map (fun r => Row.set r "country" (.str e.1)))).flatten ∧
    (∀ e ∈ l, ∀ r ∈ e.2.rows,
      Row.get (Row.set r "country" (.str e.1)) "country" = some (.str e.1)) ∧
    (∀ s : String,
      (∃ r ∈ (combinedForm l).rows, Row.get r "country" = some (.str s)) ↔
        s ∈ l.map Prod.fst) ∧
    (∀ c : String, c ∈ (combinedForm l).cols ↔ (c = "country" ∨ ∃ e ∈ l, c ∈ e.2.cols)) ∧
    (∀ e ∈ l, ∀ r ∈ e.2.rows, ∀ c : String, c ≠ "country" → c ∉ e.2.cols →
      Row.get (Row.set r "country" (.str e.1)) c = none) := by
  refine ⟨combine_toPyEntries l hne hv, combinedForm_rows_length l, ?_, ?_, rfl,
    ?_, combinedForm_country_values l hv, ?_, ?_⟩
  · rw [combinedForm_rows_length l]
    rfl
  · rw [show (combinedForm l).idx = List.range ((l.map (fun e => e.2.rows.length)).sum) from rfl]
    exact List.nodup_range _
  · intro e _ r _
    exact Row.get_set_self r _ _
  · intro c
    simp only [combinedForm, mem_unionCols, List.mem_map]
    constructor
    · rintro ⟨d, ⟨e, he, rfl⟩, hc⟩
      rcases (mem_taggedDf_cols e c).mp hc with h | h
      · exact Or.inl h
      · exact Or.inr ⟨e, he, h⟩
    · rintro (rfl | ⟨e, he, hc⟩)
      · cases l with
        | nil => exact absurd rfl hne
        | cons a as =>
          exact ⟨taggedDf a, ⟨a, by simp, rfl⟩, (mem_taggedDf_cols a _).mpr (Or.inl rfl)⟩
      · exact ⟨taggedDf e, ⟨e, he, rfl⟩, (mem_taggedDf_cols e c).mpr (Or.inr hc)⟩
  · intro e he r hr c hc hcol
    rw [Row.get_set_ne r _ hc]
    refine Row.get_eq_none r c (fun p hp => ?_)
    have hw := hwf e he
    simp only [DataFrame.wf, List.all_eq_true, decide_eq_true_eq] at hw
    intro hpc
    exact hcol (hpc ▸ hw r hr p hp)

/-- Tables from the repository's own test of mixed column structures. -/
def dfJapan : DataFrame :=
  { cols := ["GDP"], idx := [0], rows := [[("GDP", .num 5)]] }

/-- Second mixed-structure table, with an extra `Area` column. -/
def dfBrazil : DataFrame :=
  { cols := ["GDP", "Area"], idx := [0], rows := [[("GDP", .num 2), ("Area", .num 9)]] }

/-- The mixed-structure mapping used as concrete input. -/
def exampleSites : List (String × DataFrame) := [("Japan", dfJapan), ("Brazil", dfBrazil)]

/-- C1 witness: the characterization applies to the concrete two-site
mixed-column mapping. -/
theorem combine_valid_mapping_witness :
    combine_country_data (toPyEntries exampleSites) = .ok (combinedForm exampleSites) :=
  (combine_valid_mapping_characterization exampleSites (by decide) (by decide) (by decide)).1

/-- C1 counterexample: at the empty mapping every per-entry precondition holds
vacuously, yet no unified table is returned (the concatenation of zero tables
raises), so the claim fails as stated. -/
theorem combine_empty_mapping_counterexample :
    (combine_country_data (toPyEntries [])).isOk = false := by decide

/-- C2 (amended): for every non-empty mapping, `combine_country_data` succeeds
exactly when no entry violates a precondition; the first violating entry (in
iteration order) aborts the whole call with its error; and the violation kinds
map to their errors: non-string key to the site-name error, non-table value to
the table-type error, empty table to the empty-table error naming the site. -/
theorem combine_error_characterization (l : List (PyObj × PyObj)) (hne : l ≠ []) :
    ((combine_country_data l).isOk = true ↔ ∀ e ∈ l, entryError e = none) ∧
    (∀ l₁ e l₂ m, l = l₁ ++ e :: l₂ → (∀ x ∈ l₁, entryError x = none) →
      entryError e = some m → combine_country_data l = .error m) ∧
    (∀ k v, PyObj.isStr k = false → entryError (k, v) = some "Country name must be a string.") ∧
    (∀ s v, PyObj.isDf v = false →
      entryError (.str s, v) = some "Value must be a pandas DataFrame.") ∧
    (∀ s d, DataFrame.empty d = true →
      entryError (.str s, .df d) = some ("DataFrame for " ++ s ++ " is empty.")) := by
  refine ⟨?_, ?_, ?_, ?_, ?_⟩
  · constructor
    · intro hok e he
      have h1 : (tagEntries l).isOk = true := by
        unfold combine_country_data at hok
        cases hr : tagEntries l with
        | error m => rw [hr] at hok; simp [Except.isOk, Except.toBool] at hok
        | ok ds => simp [hr, Except.isOk, Except.toBool]
      rw [tagEntries_isOk] at h1
      have h3 := List.all_eq_true.mp h1 e he
      simpa [Option.isNone_iff_eq_none] using h3
    · intro hall
      have h1 : (tagEntries l).isOk = true := by
        rw [tagEntries_isOk]
        exact List.all_eq_true.mpr (fun e he => by simp [hall e he])
      cases hr : tagEntries l with
      | error m => rw [hr] at h1; simp [Except.isOk, Except.toBool] at h1
      | ok ds =>
        unfold combine_country_data
        rw [hr]
        show (pdConcat ds).isOk = true
        unfold pdConcat
        have hds : ds.isEmpty = false := by
          have hlen := tagEntries_length l ds hr
          cases ds with
          | nil =>
            cases l with
            | nil => exact absurd rfl hne
            | cons a as => simp at hlen
          | cons d ds2 => rfl
        rw [hds]
        simp [Except.isOk, Except.toBool]
  · rintro l₁ e l₂ m rfl h₁ h₂
    unfold combine_country_data
    rw [tagEntries_error_first_violation l₁ e l₂ m h₁ h₂]
  · intro k v hk
    cases k <;> simp [PyObj.isStr] at hk <;> rfl
  · intro s v hv
    cases v <;> simp [PyObj.isDf] at hv <;> rfl
  · intro s d hd
    simp [entryError, hd]

/-- C2 witness: a concrete empty-table entry aborts the call with the
empty-table error naming the site. -/
theorem combine_error_witness :
    combine_country_data [(PyObj.str "Italy", PyObj.df ⟨[], [], []⟩)]
      = .error "DataFrame for Italy is empty." :=
  (combine_error_characterization [(PyObj.str "Italy", PyObj.df ⟨[], [], []⟩)]
    (by decide)).2.1 [] (PyObj.str "Italy", PyObj.df ⟨[], [], []⟩) [] _ rfl
    (by intro x hx; cases hx) (by decide)

/-- C2 counterexample: at the empty mapping no entry violates a precondition,
yet the call still raises, so "raises exactly when some entry violates a
precondition" fails as stated. -/
theorem combine_error_exactness_counterexample :
    (combine_country_data []).isOk = false ∧
      (([] : List (PyObj × PyObj)).all fun e => (entryError e).isNone) = true :=
  ⟨rfl, rfl⟩

/-! ### Ordering of cell values (pandas sorts group keys ascending; Python
compares strings lexicographically by code point) -/

/-- Lexicographic comparison of strings as code-point lists. -/
def charListLe : List Char → List Char → Bool
  | [], _ => true
  | _ :: _, [] => false
  | a :: as, b :: bs =>
    if a.toNat < b.toNat then true
    else if b.toNat < a.toNat then false
    else charListLe as bs

theorem charListLe_total (as bs : List Char) :
    charListLe as bs = true ∨ charListLe bs as = true := by
  induction as generalizing bs with
  | nil => exact Or.inl rfl
  | cons a as ih =>
    cases bs with
    | nil => exact Or.inr rfl
    | cons b bs =>
      rcases Nat.lt_trichotomy a.toNat b.toNat with h | h | h
      · exact Or.inl (by simp [charListLe, h])
      · have h2 : ¬ a.toNat < b.toNat := by omega
        have h3 : ¬ b.toNat < a.toNat := by omega
        rcases ih bs with hc | hc
        · exact Or.inl (by simp [charListLe, h2, h3, hc])
        · exact Or.inr (by simp [charListLe, h2, h3, hc])
      · exact Or.inr (by simp [charListLe, h])

theorem charListLe_trans (as bs cs : List Char)
    (h₁ : charListLe as bs = true) (h₂ : charListLe bs cs = true) :
    charListLe as cs = true := by
  induction as generalizing bs cs with
  | nil => rfl
  | cons a as ih =>
    cases bs with
    | nil => simp [charListLe] at h₁
    | cons b bs =>
      cases cs with
      | nil => simp [charListLe] at h₂
      | cons c cs =>
        simp only [charListLe] at h₁ h₂ ⊢
        by_cases hab : a.toNat < b.toNat
        · rw [if_pos hab] at h₁
          by_cases hbc : b.toNat < c.toNat
          · rw [if_pos (show a.toNat < c.toNat by omega)]
          · rw [if_neg hbc] at h₂
            by_cases hcb : c.toNat < b.toNat
            · rw [if_pos hcb] at h₂
              cases h₂
            · rw [if_neg hcb] at h₂
              rw [if_pos (show a.toNat < c.toNat by omega)]
        · rw [if_neg hab] at h₁
          by_cases hba : b.toNat < a.toNat
          · rw [if_pos hba] at h₁
            cases h₁
          · rw [if_neg hba] at h₁
            by_cases hbc : b.toNat < c.toNat
            · rw [if_pos hbc] at h₂
              rw [if_pos (show a.toNat < c.toNat by omega)]
            · rw [if_neg hbc] at h₂
              by_cases hcb : c.toNat < b.toNat
              · rw [if_pos hcb] at h₂
                cases h₂
              · rw [if_neg hcb] at h₂
                rw [if_neg (show ¬ a.toNat < c.toNat by omega),
                    if_neg (show ¬ c.toNat < a.toNat by omega)]
                exact ih bs cs h₁ h₂

/-- Executable string comparison by code points (Python comparison on `str`). -/
def strLe (a b : String) : Bool := charListLe a.data b.data

/-- Ascending order on cell values used when sorting group keys: numbers
before strings, numbers by rational order, strings by code points. -/
def Val.leB : Val → Val → Bool
  | .num a, .num b => decide (a ≤ b)
  | .num _, .str _ => true
  | .str _, .num _ => false
  | .str a, .str b => strLe a b

/-- The key order as a relation, for the sorting library. -/
def valLe (a b : Val) : Prop := Val.leB a b = true

instance : DecidableRel valLe := fun a b =>
  instDecidableEqBool (Val.leB a b) true

instance : IsTotal Val valLe := by
  constructor
  intro a b
  cases a with
  | str s =>
    cases b with
    | str t => exact charListLe_total s.data t.data
    | num y => exact Or.inr (by simp [valLe, Val.leB])
  | num x =>
    cases b with
    | str t => exact Or.inl (by simp [valLe, Val.leB])
    | num y =>
      rcases le_total x y with h | h
      · exact Or.inl (by simp [valLe, Val.leB, h])
      · exact Or.inr (by simp [valLe, Val.leB, h])

instance : IsTrans Val valLe := by
  constructor
  intro a b c h₁ h₂
  cases a <;> cases b <;> cases c <;>
      simp only [valLe, Val.leB, strLe, decide_eq_true_eq, Bool.false_eq_true] at h₁ h₂ ⊢ <;>
      first
        | rfl
        | exact charListLe_trans _ _ _ h₁ h₂
        | exact le_trans h₁ h₂

/-! ### Grouping and descriptive statistics (the Aggregator) -/

/-- Distinct non-missing values of a column, in order of first appearance. -/
def colKeys (d : DataFrame) (c : String) : List Val :=
  (d.rows.filterMap (fun r => Row.get r c)).dedup

/-- Pandas `df.groupby(c)` keys: distinct non-missing key values sorted ascending
(pandas drops rows whose group key is missing and sorts the keys). -/
def groupKeys (d : DataFrame) (c : String) : List Val :=
  List.insertionSort valLe (colKeys d c)

/-- The rows of one group, in original row order. -/
def groupRows (d : DataFrame) (c : String) (k : Val) : List Row :=
  d.rows.filter (fun r => decide (Row.get r c = some k))

/-- Pandas `df.groupby(c)`: ascending group keys paired with their rows. -/
def groupby (d : DataFrame) (c : String) : List (Val × List Row) :=
  (groupKeys d c).map (fun k => (k, groupRows d c k))

/-- Numeric series of column `m` over given rows with missing values
dropped (string cells cannot occur in the numeric metric columns). -/
def numVals (rs : List Row) (m : String) : List ℚ :=
  rs.filterMap (fun r => match Row.get r m with
    | some (.num x) => some x
    | _ => none)

/-- Arithmetic mean (pandas `mean`): missing on an empty series. -/
def meanQ (l : List ℚ) : Option ℚ :=
  if l.isEmpty then none else some (l.sum / l.length)

/-- The 50th percentile (pandas `median`): sort, take the middle element, or the
average of the two middle elements; missing on an empty series. -/
def medianQ (l : List ℚ) : Option ℚ :=
  let s := List.insertionSort (· ≤ ·) l
  if s.length = 0 then none
  else if s.length % 2 = 1 then some (s.getD (s.length / 2) 0)
  else some ((s.getD (s.length / 2 - 1) 0 + s.getD (s.length / 2) 0) / 2)

/-- Sample variance with the n−1 denominator (the square of pandas `std`,
which uses `ddof=1`): missing when fewer than two values. -/
def varQ (l : List ℚ) : Option ℚ :=
  if l.length < 2 then none
  else
    let m := l.sum / l.length
    some ((l.map (fun x => (x - m) ^ 2)).sum / ((l.length - 1 : ℕ) : ℚ))

/-- Smallest value (pandas `min`): missing on an empty series. -/
def minQ (l : List ℚ) : Option ℚ :=
  match l with
  | [] => none
  | x :: xs => some (xs.foldl min x)

/-- Largest value (pandas `max`): missing on an empty series. -/
def maxQ (l : List ℚ) : Option ℚ :=
  match l with
  | [] => none
  | x :: xs => some (xs.foldl max x)

/-- The numeric result of one aggregation before rounding; the sample
standard deviation is carried as the unevaluated square root of the sample
variance. -/
inductive SVal
  | q (x : ℚ)
  | sqrtv (x : ℚ)
deriving DecidableEq, Repr

/-- One named pandas aggregation applied to a series; a name that does not
resolve to an aggregation function raises.  The model covers the aggregation
names this repository uses (`mean`, `median`, `std`, `min`, `max`); any other
name is modelled as unrecognized. -/
def applyStat (s : String) (l : List ℚ) : Except String (Option SVal) :=
  if s = "mean" then .ok ((meanQ l).map .q)
  else if s = "median" then .ok ((medianQ l).map .q)
  else if s = "std" then .ok ((varQ l).map .sqrtv)
  else if s = "min" then .ok ((minQ l).map .q)
  else if s = "max" then .ok ((maxQ l).map .q)
  else .error (s ++ " is not a valid function")

/-- Whether an aggregation name resolves. -/
def recognizedStat (s : String) : Bool :=
  decide (s = "mean") || decide (s = "median") || decide (s = "std") ||
    decide (s = "min") || decide (s = "max")

/-- Cell value of one aggregation once the name is known to resolve. -/
def statCell (st : String) (l : List ℚ) : Option SVal :=
  match applyStat st l with
  | .ok v => v
  | .error _ => none

/-- Round half to even (the rounding numpy applies), on rationals. -/
def rhe (y : ℚ) : ℤ :=
  let n := ⌊y⌋
  if y - n < 1/2 then n
  else if y - n > 1/2 then n + 1
  else if n % 2 = 0 then n else n + 1

/-- Integer square root `⌊√n⌋` by structural recursion on a fuel bound
(any fuel with `4 ^ fuel ≥ n` suffices; we pass `n` itself). -/
def isqrtFuel : Nat → Nat → Nat
  | 0, _ => 0
  | fuel + 1, n =>
    if n = 0 then 0
    else
      let s := 2 * isqrtFuel fuel (n / 4)
      if (s + 1) * (s + 1) ≤ n then s + 1 else s

/-- Integer square root `⌊√n⌋`. -/
def isqrt (n : Nat) : Nat := isqrtFuel n n

theorem isqrtFuel_spec (fuel : ℕ) : ∀ n : ℕ, n ≤ fuel →
    (isqrtFuel fuel n) ^ 2 ≤ n ∧ n < (isqrtFuel fuel n + 1) ^ 2 := by
  induction fuel with
  | zero =>
    intro n hn
    have : n = 0 := Nat.le_zero.mp hn
    subst this
    exact ⟨by simp [isqrtFuel], by simp [isqrtFuel]⟩
  | succ fuel ih =>
    intro n hn
    by_cases hz : n = 0
    · subst hz
      exact ⟨by simp [isqrtFuel], by simp [isqrtFuel]⟩
    · have hrec := ih (n / 4) (by omega)
      simp only [isqrtFuel, if_neg hz]
      obtain ⟨h1, h2⟩ := hrec
      set r := isqrtFuel fuel (n / 4) with hr
      have hd1 : 4 * (n / 4) ≤ n := by omega
      have hd2 : n < 4 * (n / 4) + 4 := by omega
      by_cases hcase : (2 * r + 1) * (2 * r + 1) ≤ n
      · rw [if_pos hcase]
        refine ⟨by rw [pow_two]; exact hcase, ?_⟩
        have h2b : n / 4 + 1 ≤ (r + 1) ^ 2 := h2
        have h3 : 4 * (n / 4 + 1) ≤ 4 * ((r + 1) ^ 2) :=
          Nat.mul_le_mul_left 4 h2b
        have h4 : 4 * ((r + 1) ^ 2) = (2 * r + 1 + 1) ^ 2 := by ring
        omega
      · rw [if_neg hcase]
        have h3 : 4 * (r ^ 2) ≤ 4 * (n / 4) := Nat.mul_le_mul_left 4 h1
        have h4 : (2 * r) ^ 2 = 4 * (r ^ 2) := by ring
        have h5 : (2 * r + 1) ^ 2 = (2 * r + 1) * (2 * r + 1) := by ring
        omega

/-- Correctness of `isqrt`: it is the integer square root. -/
theorem isqrt_spec (n : ℕ) : (isqrt n) ^ 2 ≤ n ∧ n < (isqrt n + 1) ^ 2 :=
  isqrtFuel_spec n n le_rfl

/-- Floor of `s·√x` for a non-negative rational, by integer square root:
`s·√(a/b) = √(s²·a·b)/b` and the floor passes through the division. -/
def sqrtFloorScaled (x : ℚ) (s : ℕ) : ℕ :=
  isqrt ((s * s * x.num).toNat * x.den) / x.den

/-- Round `√x` to 2 decimal places, half to even, computably: compare
`100·√x` with the midpoint `n + 1/2` by comparing squares. -/
def round2Sqrt (x : ℚ) : ℚ :=
  let n := sqrtFloorScaled x 100
  if (40000 : ℚ) * x < (((2 * n + 1) ^ 2 : ℕ) : ℚ) then (n : ℚ) / 100
  else if (((2 * n + 1) ^ 2 : ℕ) : ℚ) < (40000 : ℚ) * x then ((n : ℚ) + 1) / 100
  else (if n % 2 = 0 then (n : ℚ) else (n : ℚ) + 1) / 100

/-- Pandas `.round(2)` on one aggregated value. -/
def SVal.round2 : SVal → ℚ
  | .q x => (rhe (100 * x) : ℚ) / 100
  | .sqrtv x => round2Sqrt x

/-- The flattened `"{metric}_{stat}"` column names, metric-major as the
multi-level `agg` columns are ordered. -/
def statColNames (metrics stats : List String) : List String :=
  metrics.flatMap (fun m => stats.map (fun st => m ++ "_" ++ st))

/-- The summary row of one group: the group key restored as an ordinary
column, then the rounded statistic cells; a missing statistic stays missing
(no binding for that column). -/
def summaryRow (ccol : String) (metrics stats : List String) (g : Val × List Row) : Row :=
  (ccol, g.1) ::
    metrics.flatMap (fun m => stats.filterMap (fun st =>
      (statCell st (numVals g.2 m)).map (fun v => (m ++ "_" ++ st, Val.num v.round2))))

/-- The summary table produced by
`df.groupby(ccol)[metrics].agg(stats).round(2)` followed by flattening the
column names and `reset_index()`. -/
def summaryFrame (d : DataFrame) (metrics stats : List String) (ccol : String) : DataFrame :=
  { cols := ccol :: statColNames metrics stats
    idx := List.range (groupby d ccol).length
    rows := (groupby d ccol).map (summaryRow ccol metrics stats) }

/-- Python list display of the missing metric names (string quoting of the
original message elided). -/
def pyStrList (l : List String) : String :=
  "[" ++ String.intercalate ", " l ++ "]"

/-- The method `ComparisionUtils.generate_summary_stats` up to its internal raising:
input validation in source order (type, emptiness, group column, metric
columns — reporting exactly the missing ones), then the grouped aggregation,
which rejects an aggregation name that does not resolve. -/
def gssChecked (obj : PyObj) (metrics stats : List String) (ccol : String) :
    Except String DataFrame :=
  match obj with
  | .df d =>
    if d.empty then .error "DataFrame is empty"
    else if ccol ∈ d.cols then
      match metrics.filter (fun m => decide (m ∉ d.cols)) with
      | [] =>
        match stats.findSome? (fun st =>
            match applyStat st [] with
            | .error e => some e
            | .ok _ => none) with
        | some e => .error e
        | none => .ok (summaryFrame d metrics stats ccol)
      | missing => .error ("Metrics not found in DataFrame: " ++ pyStrList missing)
    else .error ("Country column " ++ ccol ++ " not found in DataFrame")
  | _ => .error "Input must be a pandas DataFrame"

/-- The wrapper `generate_summary_stats`: both `except` handlers only log and fall
through, so every internal error is absorbed and the caller receives `None`. -/
def generate_summary_stats (obj : PyObj) (metrics stats : List String)
    (ccol : String) : Option DataFrame :=
  match gssChecked obj metrics stats ccol with
  | .ok d => some d
  | .error _ => none

/-- Metric columns contain no string cells (numeric or missing only). -/
def numericCol (d : DataFrame) (m : String) : Bool :=
  d.rows.all (fun r => match Row.get r m with
    | some (.str _) => false
    | _ => true)

/-! ### Lemmas about grouping and the summary table -/

theorem groupKeys_sorted (d : DataFrame) (c : String) :
    List.Sorted valLe (groupKeys d c) :=
  List.sorted_insertionSort valLe _

theorem mem_groupKeys (d : DataFrame) (c : String) (k : Val) :
    k ∈ groupKeys d c ↔ ∃ r ∈ d.rows, Row.get r c = some k := by
  unfold groupKeys colKeys
  rw [(List.perm_insertionSort valLe _).mem_iff, List.mem_dedup, List.mem_filterMap]

theorem strAppend_right_inj {a x y : String} (h : a ++ x = a ++ y) : x = y := by
  have hd : a.data ++ x.data = a.data ++ y.data := by
    rw [← String.data_append, ← String.data_append, h]
  exact String.ext (List.append_cancel_left hd)

theorem get_statBlock (m : String) (stats : List String) (F : String → Option Val)
    (st : String) (hst : st ∈ stats) :
    Row.get (stats.filterMap fun t => (F t).map fun v => (m ++ "_" ++ t, v))
        (m ++ "_" ++ st) = F st := by
  induction stats with
  | nil => cases hst
  | cons t ts ih =>
    rw [List.filterMap_cons]
    by_cases hts : t = st
    · subst hts
      cases hF : F t with
      | some v => simp [Row.get]
      | none =>
        by_cases hmem : t ∈ ts
        · rw [hF] at ih
          simpa using ih hmem
        · apply Row.get_eq_none
          intro p hp
          obtain ⟨t2, ht2, hpt⟩ := List.mem_filterMap.mp hp
          obtain ⟨v, _, rfl⟩ := Option.map_eq_some'.mp hpt
          intro hc
          exact hmem (strAppend_right_inj hc ▸ ht2)
    · have hstts : st ∈ ts := by
        rcases List.mem_cons.mp hst with h | h
        · exact absurd h.symm hts
        · exact h
      have hkey : ¬ (m ++ "_" ++ t = m ++ "_" ++ st) :=
        fun hc => hts (strAppend_right_inj hc)
      cases hF : F t with
      | some v =>
        simp only [Row.get, hkey, if_false, reduceIte]
        exact ih hstts
      | none => exact ih hstts

theorem Row.get_append (r₁ r₂ : Row) (c : String) :
    Row.get (r₁ ++ r₂) c = (Row.get r₁ c).or (Row.get r₂ c) := by
  induction r₁ with
  | nil => rfl
  | cons p ps ih =>
    by_cases hp : p.1 = c <;> simp [Row.get, hp, ih]

theorem mem_statColNames (metrics stats : List String) (m st : String)
    (hm : m ∈ metrics) (hst : st ∈ stats) :
    m ++ "_" ++ st ∈ statColNames metrics stats :=
  List.mem_flatMap.mpr ⟨m, hm, List.mem_map.mpr ⟨st, hst, rfl⟩⟩

theorem get_summaryCells (metrics stats : List String) (F : String → String → Option Val)
    (m st : String) (hm : m ∈ metrics) (hst : st ∈ stats)
    (hnd : (statColNames metrics stats).Nodup) :
    Row.get (metrics.flatMap fun m2 => stats.filterMap fun t =>
        (F m2 t).map fun v => (m2 ++ "_" ++ t, v)) (m ++ "_" ++ st)
      = F m st := by
  induction metrics with
  | nil => cases hm
  | cons m0 ms ih =>
    rw [List.flatMap_cons, Row.get_append]
    have hsplit : statColNames (m0 :: ms) stats
        = stats.map (fun t => m0 ++ "_" ++ t) ++ statColNames ms stats := by
      simp [statColNames]
    rw [hsplit, List.nodup_append] at hnd
    have hblockkeys : ∀ p ∈ (stats.filterMap fun t =>
        (F m0 t).map fun v => (m0 ++ "_" ++ t, v)),
        p.1 ∈ stats.map (fun t => m0 ++ "_" ++ t) := by
      intro p hp
      obtain ⟨t2, ht2, hpt⟩ := List.mem_filterMap.mp hp
      obtain ⟨v, _, rfl⟩ := Option.map_eq_some'.mp hpt
      exact List.mem_map.mpr ⟨t2, ht2, rfl⟩
    by_cases hm0 : m0 = m
    · subst hm0
      rw [get_statBlock m0 stats (F m0) st hst]
      cases hF : F m0 st with
      | some v => rfl
      | none =>
        have hrest : Row.get (ms.flatMap fun m2 => stats.filterMap fun t =>
            (F m2 t).map fun v => (m2 ++ "_" ++ t, v)) (m0 ++ "_" ++ st) = none := by
          apply Row.get_eq_none
          intro p hp
          obtain ⟨m2, hm2, hpblock⟩ := List.mem_flatMap.mp hp
          obtain ⟨t2, ht2, hpt⟩ := List.mem_filterMap.mp hpblock
          obtain ⟨v, _, rfl⟩ := Option.map_eq_some'.mp hpt
          intro hc
          exact hnd.2.2 (List.mem_map.mpr ⟨st, hst, rfl⟩)
            (hc ▸ mem_statColNames ms stats m2 t2 hm2 ht2)
        rw [hrest]
        rfl
    · have hmms : m ∈ ms := by
        rcases List.mem_cons.mp hm with h | h
        · exact absurd h.symm hm0
        · exact h
      have hblocknone : Row.get (stats.filterMap fun t =>
          (F m0 t).map fun v => (m0 ++ "_" ++ t, v)) (m ++ "_" ++ st) = none := by
        apply Row.get_eq_none
        intro p hp hc
        exact hnd.2.2 (hc ▸ hblockkeys p hp) (mem_statColNames ms stats m st hmms hst)
      rw [hblocknone]
      simp only [Option.or]
      exact ih hmms hnd.2.1

theorem applyStat_error_of_unrecognized (st : String) (l : List ℚ)
    (h : recognizedStat st = false) :
    applyStat st l = .error (st ++ " is not a valid function") := by
  unfold recognizedStat at h
  simp only [Bool.or_eq_false_iff, decide_eq_false_iff_not] at h
  obtain ⟨⟨⟨⟨h1, h2⟩, h3⟩, h4⟩, h5⟩ := h
  unfold applyStat
  rw [if_neg h1, if_neg h2, if_neg h3, if_neg h4, if_neg h5]

theorem applyStat_ok_of_recognized (st : String) (l : List ℚ)
    (h : recognizedStat st = true) : ∃ v, applyStat st l = .ok v := by
  unfold recognizedStat at h
  simp only [Bool.or_eq_true, decide_eq_true_eq] at h
  unfold applyStat
  rcases h with ((((h | h) | h) | h) | h) <;> subst h <;> simp

theorem gssChecked_success (d : DataFrame) (metrics stats : List String) (ccol : String)
    (hne : d.empty = false) (hc : ccol ∈ d.cols)
    (hm : ∀ m ∈ metrics, m ∈ d.cols)
    (hst : ∀ st ∈ stats, recognizedStat st = true) :
    gssChecked (.df d) metrics stats ccol = .ok (summaryFrame d metrics stats ccol) := by
  simp only [gssChecked]
  rw [hne]
  simp only [Bool.false_eq_true, if_false, reduceIte, if_pos hc]
  have hfilter : metrics.filter (fun m => decide (m ∉ d.cols)) = [] := by
    rw [List.filter_eq_nil]
    intro m hmm
    simpa using hm m hmm
  rw [hfilter]
  have hfind : stats.findSome? (fun st =>
      match applyStat st [] with
      | .error e => some e
      | .ok _ => none) = none := by
    rw [List.findSome?_eq_none]
    intro st hstm
    obtain ⟨v, hv⟩ := applyStat_ok_of_recognized st [] (hst st hstm)
    rw [hv]
  rw [hfind]

theorem summaryRow_normalized (ccol : String) (metrics stats : List String)
    (g : Val × List Row) :
    summaryRow ccol metrics stats g
      = (ccol, g.1) :: metrics.flatMap (fun m2 => stats.filterMap (fun t =>
          ((statCell t (numVals g.2 m2)).map (fun v => Val.num v.round2)).map
            (fun v => (m2 ++ "_" ++ t, v)))) := by
  unfold summaryRow
  congr 1
  congr 1
  funext m2
  congr 1
  funext t
  rw [Option.map_map]
  rfl

/-- The Germany/Spain four-row combined table from the repository's tests
(rows deliberately interleaved, so that sorted group order differs from row
order). -/
def sampleCombined : DataFrame :=
  { cols := ["country", "GHI", "DNI", "DHI"]
    idx := [0, 1, 2, 3]
    rows := [
      [("country", .str "Spain"), ("GHI", .num 520), ("DNI", .num 380), ("DHI", .num 140)],
      [("country", .str "Germany"), ("GHI", .num 450), ("DNI", .num 320), ("DHI", .num 130)],
      [("country", .str "Germany"), ("GHI", .num 460), ("DNI", .num 330), ("DHI", .num 140)],
      [("country", .str "Spain"), ("GHI", .num 530), ("DNI", .num 390), ("DHI", .num 150)]] }

/-- C3: on a non-empty table with the group column and all metric columns
present (metric columns numeric, statistics drawn from mean/median/std, and
the generated column names free of collisions), `generate_summary_stats`
returns the summary: one row per group; group keys sorted ascending and
exactly the distinct non-missing key values; the key restored as an ordinary
column; one `"{metric}_{stat}"` column per pair; each cell the requested
statistic over the group's non-missing values rounded to 2 decimals, missing
(not zero) when the statistic is undefined; the statistics have their
standard definitions (mean = arithmetic mean, median = 50th percentile,
std = sample standard deviation with the n−1 denominator), with
[450, 460] giving mean 455 and std rounding to 7.07. -/
theorem generate_summary_stats_characterization
    (d : DataFrame) (metrics stats : List String) (ccol : String)
    (hne : d.empty = false) (hc : ccol ∈ d.cols)
    (hm : ∀ m ∈ metrics, m ∈ d.cols)
    (hnum : ∀ m ∈ metrics, numericCol d m = true)
    (hst : ∀ st ∈ stats, st = "mean" ∨ st = "median" ∨ st = "std")
    (hstne : stats ≠ [])
    (hnd : (ccol :: statColNames metrics stats).Nodup) :
    generate_summary_stats (.df d) metrics stats ccol
        = some (summaryFrame d metrics stats ccol) ∧
    (summaryFrame d metrics stats ccol).cols = ccol :: statColNames metrics stats ∧
    (summaryFrame d metrics stats ccol).rows.length = (groupKeys d ccol).length ∧
    List.Sorted valLe (groupKeys d ccol) ∧
    (∀ k, k ∈ groupKeys d ccol ↔ ∃ r ∈ d.rows, Row.get r ccol = some k) ∧
    List.Forall₂ (fun g row =>
        Row.get row ccol = some g.1 ∧
        ∀ m ∈ metrics, ∀ st ∈ stats,
          Row.get row (m ++ "_" ++ st)
            = (statCell st (numVals g.2 m)).map (fun v => Val.num v.round2))
      (groupby d ccol) (summaryFrame d metrics stats ccol).rows ∧
    (∀ l : List ℚ, statCell "mean" l = (meanQ l).map SVal.q ∧
        statCell "median" l = (medianQ l).map SVal.q ∧
        statCell "std" l = (varQ l).map SVal.sqrtv) ∧
    (statCell "mean" [450, 460] = some (.q 455) ∧
      (statCell "std" [450, 460]).map SVal.round2 = some (707 / 100)) ∧
    (∀ st ∈ stats, statCell st [] = none) := by
  have hrec : ∀ st ∈ stats, recognizedStat st = true := by
    intro st hstm
    rcases hst st hstm with h | h | h <;> subst h <;> rfl
  have hccol : ccol ∉ statColNames metrics stats := (List.nodup_cons.mp hnd).1
  refine ⟨?_, rfl, ?_, groupKeys_sorted d ccol, mem_groupKeys d ccol, ?_, ?_, ?_, ?_⟩
  · unfold generate_summary_stats
    rw [gssChecked_success d metrics stats ccol hne hc hm hrec]
  · simp [summaryFrame, groupby]
  · show List.Forall₂ _ (groupby d ccol) ((groupby d ccol).map (summaryRow ccol metrics stats))
    rw [List.forall₂_map_right_iff, List.forall₂_same]
    intro g hg
    constructor
    · simp [summaryRow, Row.get]
    · intro m hmm st hstm
      rw [summaryRow_normalized]
      have hname : ¬ ccol = m ++ "_" ++ st := fun hc2 =>
        hccol (hc2 ▸ mem_statColNames metrics stats m st hmm hstm)
      simp only [Row.get, hname, if_false, reduceIte]
      exact get_summaryCells metrics stats
        (fun m2 t => (statCell t (numVals g.2 m2)).map (fun v => Val.num v.round2))
        m st hmm hstm (List.nodup_cons.mp hnd).2
  · intro l
    refine ⟨?_, ?_, ?_⟩ <;> simp [statCell, applyStat]
  · constructor
    · have : meanQ [450, 460] = some 455 := by
        simp only [meanQ]
        norm_num
      simp [statCell, applyStat, this]
    · have h50 : statCell "std" [450, 460] = some (.sqrtv 50) := by
        have : varQ [450, 460] = some 50 := by
          simp only [varQ]
          norm_num
        simp [statCell, applyStat, this]
      have hsq : sqrtFloorScaled 50 100 = 707 := by decide
      rw [h50]
      show some (SVal.round2 (.sqrtv 50)) = some ((707 : ℚ) / 100)
      rw [show SVal.round2 (.sqrtv 50) = round2Sqrt 50 from rfl]
      simp only [round2Sqrt, hsq]
      norm_num
  · intro st hstm
    rcases hst st hstm with h | h | h <;> subst h <;> decide

/-- C3 witness: the characterization applies to the concrete four-row,
two-group table with metrics GHI and DNI and the three default statistics. -/
theorem generate_summary_stats_witness :
    generate_summary_stats (.df sampleCombined) ["GHI", "DNI"] ["mean", "median", "std"]
        "country"
      = some (summaryFrame sampleCombined ["GHI", "DNI"] ["mean", "median", "std"] "country") :=
  (generate_summary_stats_characterization sampleCombined ["GHI", "DNI"]
    ["mean", "median", "std"] "country" (by decide) (by decide) (by decide) (by decide)
    (by decide) (by decide) (by decide)).1

/-- C4: every validation failure of `generate_summary_stats` — non-table
input, empty table, missing group column, or missing metric columns (reported
naming exactly the missing metrics) — is logged internally and surfaces as
the absence signal `none`, never as a raised error or a partial summary. -/
theorem generate_summary_stats_absence :
    (∀ (obj : PyObj) (metrics stats : List String) (ccol : String),
      PyObj.isDf obj = false →
      gssChecked obj metrics stats ccol = .error "Input must be a pandas DataFrame" ∧
      generate_summary_stats obj metrics stats ccol = none) ∧
    (∀ (d : DataFrame) (metrics stats : List String) (ccol : String),
      DataFrame.empty d = true →
      gssChecked (.df d) metrics stats ccol = .error "DataFrame is empty" ∧
      generate_summary_stats (.df d) metrics stats ccol = none) ∧
    (∀ (d : DataFrame) (metrics stats : List String) (ccol : String),
      DataFrame.empty d = false → ccol ∉ d.cols →
      gssChecked (.df d) metrics stats ccol
        = .error ("Country column " ++ ccol ++ " not found in DataFrame") ∧
      generate_summary_stats (.df d) metrics stats ccol = none) ∧
    (∀ (d : DataFrame) (metrics stats : List String) (ccol : String),
      DataFrame.empty d = false → ccol ∈ d.cols →
      metrics.filter (fun m => decide (m ∉ d.cols)) ≠ [] →
      gssChecked (.df d) metrics stats ccol
        = .error ("Metrics not found in DataFrame: "
            ++ pyStrList (metrics.filter (fun m => decide (m ∉ d.cols)))) ∧
      generate_summary_stats (.df d) metrics stats ccol = none) := by
  refine ⟨?_, ?_, ?_, ?_⟩
  · intro obj metrics stats ccol hobj
    cases obj <;> simp [PyObj.isDf] at hobj <;>
      exact ⟨rfl, rfl⟩
  · intro d metrics stats ccol hd
    have h1 : gssChecked (.df d) metrics stats ccol = .error "DataFrame is empty" := by
      simp only [gssChecked]
      rw [hd]
      rfl
    exact ⟨h1, by unfold generate_summary_stats; rw [h1]⟩
  · intro d metrics stats ccol hd hc
    have h1 : gssChecked (.df d) metrics stats ccol
        = .error ("Country column " ++ ccol ++ " not found in DataFrame") := by
      simp only [gssChecked]
      rw [hd]
      simp only [Bool.false_eq_true, if_false, reduceIte, if_neg hc]
    exact ⟨h1, by unfold generate_summary_stats; rw [h1]⟩
  · intro d metrics stats ccol hd hc hmiss
    have h1 : gssChecked (.df d) metrics stats ccol
        = .error ("Metrics not found in DataFrame: "
            ++ pyStrList (metrics.filter (fun m => decide (m ∉ d.cols)))) := by
      simp only [gssChecked]
      rw [hd]
      simp only [Bool.false_eq_true, if_false, reduceIte, if_pos hc]
    exact ⟨h1, by unfold generate_summary_stats; rw [h1]⟩

/-- C4 witness: a concrete call with one missing metric reports exactly that
metric and returns the absence signal. -/
theorem generate_summary_stats_absence_witness :
    gssChecked (.df sampleCombined) ["GHI", "INVALID"] ["mean"] "country"
        = .error ("Metrics not found in DataFrame: " ++ pyStrList ["INVALID"]) ∧
      generate_summary_stats (.df sampleCombined) ["GHI", "INVALID"] ["mean"] "country"
        = none :=
  generate_summary_stats_absence.2.2.2 sampleCombined ["GHI", "INVALID"] ["mean"] "country"
    (by decide) (by decide) (by decide)

/-- C7 counterexample: on a valid table, an unrecognized statistic name makes
the aggregation raise internally, but the wrapper absorbs it and returns the
absence signal — the error does not propagate to the caller, contradicting
the claim. -/
theorem unrecognized_stat_counterexample :
    gssChecked (.df sampleCombined) ["GHI"] ["mean", "bogus"] "country"
        = .error "bogus is not a valid function" ∧
      generate_summary_stats (.df sampleCombined) ["GHI"] ["mean", "bogus"] "country"
        = none := by
  constructor <;> rfl

/-- C7 (amended): for every otherwise-valid call whose stats list contains an
unrecognized statistic name, the underlying aggregation fails, so no partial
summary is produced and the name is not silently skipped; but the failure is
caught and absorbed into the absence return instead of propagating. -/
theorem unrecognized_stat_absorbed
    (d : DataFrame) (metrics stats : List String) (ccol st : String)
    (hne : d.empty = false) (hc : ccol ∈ d.cols)
    (hm : ∀ m ∈ metrics, m ∈ d.cols)
    (hst : st ∈ stats) (hbad : recognizedStat st = false) :
    (∃ e, gssChecked (.df d) metrics stats ccol = .error e) ∧
      generate_summary_stats (.df d) metrics stats ccol = none := by
  have hfilter : metrics.filter (fun m => decide (m ∉ d.cols)) = [] := by
    rw [List.filter_eq_nil]
    intro m hmm
    simpa using hm m hmm
  have hfind : stats.findSome? (fun t =>
      match applyStat t [] with
      | .error e => some e
      | .ok _ => none) ≠ none := by
    intro hnone
    rw [List.findSome?_eq_none] at hnone
    have h2 := hnone st hst
    rw [applyStat_error_of_unrecognized st [] hbad] at h2
    cases h2
  cases hfs : stats.findSome? (fun t =>
      match applyStat t [] with
      | .error e => some e
      | .ok _ => none) with
  | none => exact absurd hfs hfind
  | some e =>
    have h1 : gssChecked (.df d) metrics stats ccol = .error e := by
      simp only [gssChecked]
      rw [hne]
      simp only [Bool.false_eq_true, if_false, reduceIte, if_pos hc]
      rw [hfilter, hfs]
    exact ⟨⟨e, h1⟩, by unfold generate_summary_stats; rw [h1]⟩

/-- C7 amended-claim witness: the concrete `"bogus"` call is absorbed. -/
theorem unrecognized_stat_absorbed_witness :
    (∃ e, gssChecked (.df sampleCombined) ["GHI"] ["mean", "bogus"] "country" = .error e) ∧
      generate_summary_stats (.df sampleCombined) ["GHI"] ["mean", "bogus"] "country"
        = none :=
  unrecognized_stat_absorbed sampleCombined ["GHI"] ["mean", "bogus"] "country" "bogus"
    (by decide) (by decide) (by decide) (by decide) (by decide)

/-! ### One-way ANOVA (the SignificanceTester) -/

/-- A float statistic produced by the test: a finite exact value, infinity
(zero within-group variance with distinct group means), or NaN. -/
inductive FStat
  | val (x : ℚ)
  | inf
  | nan
deriving DecidableEq, Repr

/-- The p-value: NaN for degenerate data; `sf F d1 d2`, the survival function
of the F(d1, d2) distribution at the finite statistic F, carried symbolically
(it is transcendental, so it has no exact arithmetic value); 0 at an infinite
statistic. -/
inductive PValR
  | nan
  | sf (f : ℚ) (dfbn dfwn : ℕ)
  | zero
deriving DecidableEq, Repr

/-- The test `scipy.stats.f_oneway`: raises with fewer than two samples; warns and
returns a degenerate (NaN, NaN) pair when some sample is empty, when every
sample has length one, or when all values in all samples are identical;
otherwise computes the F statistic from the between/within sums of squares
(infinite when the within-group sum of squares is zero). -/
def f_oneway (args : List (List ℚ)) : Except String (FStat × PValR) :=
  if args.length < 2 then .error "at least two inputs are required"
  else if args.any (fun a => a.isEmpty) then .ok (.nan, .nan)
  else if args.all (fun a => a.length = 1) then .ok (.nan, .nan)
  else
    let alldata := args.flatten
    if alldata.all (fun x => decide (x = alldata.headI)) then .ok (.nan, .nan)
    else
      let bign : ℚ := alldata.length
      let sqsum := (alldata.map (fun x => x ^ 2)).sum
      let sstot := sqsum - alldata.sum ^ 2 / bign
      let ssbn := (args.map (fun a => a.sum ^ 2 / (a.length : ℚ))).sum
                    - alldata.sum ^ 2 / bign
      let sswn := sstot - ssbn
      let dfbn := args.length - 1
      let dfwn := alldata.length - args.length
      let msb := ssbn / (dfbn : ℚ)
      let msw := sswn / (dfwn : ℚ)
      if msw = 0 then .ok (.inf, .zero)
      else .ok (.val (msb / msw), .sf (msb / msw) dfbn dfwn)

/-- The partitions `perform_anova` hands to the test: the value column of
each group (groups in ascending key order), missing values dropped; empty
partitions are *not* discarded. -/
def anovaParts (d : DataFrame) (group_col value_col : String) : List (List ℚ) :=
  (groupby d group_col).map (fun g => numVals g.2 value_col)

/-- The method `ComparisionUtils.perform_anova` before its exception handler: both
columns must exist (otherwise the groupby or the column selection raises a
KeyError), then the test runs on all partitions. -/
def anovaCore (obj : PyObj) (group_col value_col : String) :
    Except String (FStat × PValR) :=
  match obj with
  | .df d =>
    if group_col ∈ d.cols then
      if value_col ∈ d.cols then f_oneway (anovaParts d group_col value_col)
      else .error ("KeyError: " ++ value_col)
    else .error ("KeyError: " ++ group_col)
  | _ => .error "no attribute groupby"

/-- The wrapper `perform_anova`: the `except` handler catches every failure and returns
the absence pair (None, None), modelled as `none`.  The `interpret` flag only
prints a message and never changes the return value, so it is omitted. -/
def perform_anova (obj : PyObj) (group_col value_col : String) :
    Option (FStat × PValR) :=
  match anovaCore obj group_col value_col with
  | .ok r => some r
  | .error _ => none

/-- Variant following the spec wording for the C6 comparison: *discard empty
partitions* after dropping missing values and run the test on the remaining
partitions only. -/
def perform_anova_specVariant (obj : PyObj) (group_col value_col : String) :
    Option (FStat × PValR) :=
  match obj with
  | .df d =>
    match f_oneway ((anovaParts d group_col value_col).filter (fun l => !l.isEmpty)) with
    | .ok r => some r
    | .error _ => none
  | _ => none

/-- Two sites with GHI data plus one whose GHI is entirely missing. -/
def anovaSample : DataFrame :=
  { cols := ["country", "GHI"]
    idx := [0, 1, 2, 3, 4]
    rows := [
      [("country", .str "A"), ("GHI", .num 1)],
      [("country", .str "A"), ("GHI", .num 2)],
      [("country", .str "B"), ("GHI", .num 3)],
      [("country", .str "B"), ("GHI", .num 4)],
      [("country", .str "C")]] }

/-- A single-group table for the degenerate-input case. -/
def singleGroup : DataFrame :=
  { cols := ["country", "GHI"]
    idx := [0, 1]
    rows := [
      [("country", .str "Benin"), ("GHI", .num 1)],
      [("country", .str "Benin"), ("GHI", .num 2)]] }

/-- C5: `perform_anova` never raises past its boundary: it returns the
absence pair exactly when the inner computation fails, and in particular it
returns the absence pair whenever grouping yields fewer than two groups
(e.g. a single-group input, on which the underlying test raises its
at-least-two-inputs error). -/
theorem perform_anova_total :
    (∀ (obj : PyObj) (g v : String),
      perform_anova obj g v = none ↔ (anovaCore obj g v).isOk = false) ∧
    (∀ (d : DataFrame) (g v : String), (groupby d g).length < 2 →
      perform_anova (.df d) g v = none) := by
  constructor
  · intro obj g v
    unfold perform_anova
    cases h : anovaCore obj g v <;> simp [Except.isOk, Except.toBool]
  · intro d g v hlen
    unfold perform_anova anovaCore
    by_cases hg : g ∈ d.cols
    · by_cases hv : v ∈ d.cols
      · simp only [if_pos hg, if_pos hv]
        have hargs : (anovaParts d g v).length < 2 := by
          simpa [anovaParts] using hlen
        have hf : f_oneway (anovaParts d g v)
            = .error "at least two inputs are required" := by
          unfold f_oneway
          rw [if_pos hargs]
        rw [hf]
      · simp [hg, hv]
    · simp [hg]

/-- C5 witness: a single-group input returns the absence pair. -/
theorem perform_anova_total_witness :
    perform_anova (.df singleGroup) "country" "GHI" = none :=
  perform_anova_total.2 singleGroup "country" "GHI" (by decide)

/-- C6 (amended): when both columns exist, `perform_anova` returns a result
exactly when the underlying test does, and that result is the test's output
on the partitions — the value column partitioned by group, missing values
dropped within each partition, empty partitions *kept* — with the F statistic
and p-value passed through untouched (no rounding). -/
theorem perform_anova_success_characterization
    (d : DataFrame) (g v : String) (hg : g ∈ d.cols) (hv : v ∈ d.cols) :
    (∀ r, perform_anova (.df d) g v = some r ↔ f_oneway (anovaParts d g v) = .ok r) ∧
    anovaParts d g v = (groupby d g).map (fun grp => numVals grp.2 v) := by
  refine ⟨?_, rfl⟩
  intro r
  have hcore : anovaCore (.df d) g v = f_oneway (anovaParts d g v) := by
    show (if g ∈ d.cols then
        if v ∈ d.cols then f_oneway (anovaParts d g v)
        else Except.error ("KeyError: " ++ v)
      else Except.error ("KeyError: " ++ g)) = f_oneway (anovaParts d g v)
    rw [if_pos hg, if_pos hv]
  unfold perform_anova
  rw [hcore]
  cases h : f_oneway (anovaParts d g v) <;> simp

/-- C6 amended-claim witness: on the concrete table with an empty partition
the returned pair is exactly the test's (degenerate) output. -/
theorem perform_anova_success_witness :
    f_oneway (anovaParts anovaSample "country" "GHI") = .ok (.nan, .nan) :=
  ((perform_anova_success_characterization anovaSample "country" "GHI" (by decide)
    (by decide)).1 (.nan, .nan)).mp rfl

/-- C6 counterexample: with one partition empty after dropping missing
values, the code hands it to the test and receives the degenerate (NaN, NaN)
pair, while the claimed discard-empty-partitions behaviour would compute the
F-test over the two remaining partitions (F = 8); the two results differ. -/
theorem perform_anova_empty_partition_counterexample :
    perform_anova (.df anovaSample) "country" "GHI" = some (.nan, .nan) ∧
    perform_anova_specVariant (.df anovaSample) "country" "GHI"
      = some (.val 8, .sf 8 1 2) ∧
    perform_anova (.df anovaSample) "country" "GHI"
      ≠ perform_anova_specVariant (.df anovaSample) "country" "GHI" := by
  have h1 : perform_anova (.df anovaSample) "country" "GHI" = some (.nan, .nan) := rfl
  have hparts : (anovaParts anovaSample "country" "GHI").filter (fun l => !l.isEmpty)
      = [[1, 2], [3, 4]] := rfl
  have hf : f_oneway [[1, 2], [3, 4]] = .ok (.val 8, .sf 8 1 2) := by
    simp only [f_oneway]
    norm_num
  have h2 : perform_anova_specVariant (.df anovaSample) "country" "GHI"
      = some (.val 8, .sf 8 1 2) := by
    show (match f_oneway ((anovaParts anovaSample "country" "GHI").filter
        (fun l => !l.isEmpty)) with
      | Except.ok r => some r
      | Except.error _ => none) = some (.val 8, .sf 8 1 2)
    rw [hparts, hf]
  refine ⟨h1, h2, ?_⟩
  rw [h1, h2]
  simp

/-! ### Object-identity model of the combine loop (the mutation claim) -/

/-- A heap of DataFrame objects in allocation order; Python variables hold
references (positions) into it. -/
abbrev Store := List DataFrame

/-- A reference into the store. -/
abbrev Ref := Nat

/-- Dereference.  Out-of-range reads give an empty frame (valid runs never
read out of range, and an out-of-range read fails the emptiness check). -/
def storeRead (σ : Store) (r : Ref) : DataFrame :=
  σ.getD r { cols := [], idx := [], rows := [] }

/-- The loop body of `combine_country_data` with Python object semantics made
explicit: `df.copy()` allocates a fresh object, and the column assignment
`df_copy["country"] = country` mutates that fresh object in place. -/
def combineRefLoop : List (String × Ref) → Store → List Ref →
    Except String (Store × List Ref)
  | [], σ, acc => .ok (σ, acc)
  | (country, r) :: rest, σ, acc =>
    let d := storeRead σ r
    if d.empty then .error ("DataFrame for " ++ country ++ " is empty.")
    else
      let rc := σ.length
      let σ1 := σ ++ [d]
      let σ2 := σ1.set rc ((storeRead σ1 rc).setConstCol "country" (.str country))
      combineRefLoop rest σ2 (acc ++ [rc])

/-- The combine over the heap: run the validation/tagging loop
(allocating the copies), then concatenate the copies into a freshly
allocated result object. -/
def combine_country_data_ref (entries : List (String × Ref)) (σ : Store) :
    Except String (Store × Ref) :=
  match combineRefLoop entries σ [] with
  | .error e => .error e
  | .ok (σ1, refs) =>
    match pdConcat (refs.map (storeRead σ1)) with
    | .error e => .error e
    | .ok c => .ok (σ1 ++ [c], σ1.length)

theorem storeRead_append_left (σ τ : Store) (i : Nat) (h : i < σ.length) :
    storeRead (σ ++ τ) i = storeRead σ i := by
  unfold storeRead
  exact List.getD_append σ τ _ i h

theorem storeRead_append_self (σ : Store) (d : DataFrame) :
    storeRead (σ ++ [d]) σ.length = d := by
  unfold storeRead
  rw [List.getD_append_right σ [d] _ σ.length le_rfl]
  simp

theorem set_append_length (σ : Store) (d x : DataFrame) :
    (σ ++ [d]).set σ.length x = σ ++ [x] := by
  induction σ with
  | nil => rfl
  | cons a as ih =>
    show a :: (as ++ [d]).set as.length x = a :: (as ++ [x])
    rw [ih]

theorem getD_range_map {α : Type} (l : List α) (dflt : α) :
    (List.range l.length).map (fun i => l.getD i dflt) = l := by
  induction l with
  | nil => rfl
  | cons a as ih =>
    rw [List.length_cons, List.range_succ_eq_map, List.map_cons, List.map_map]
    have hc : ((fun i => (a :: as).getD i dflt) ∘ Nat.succ) = fun i => as.getD i dflt := by
      funext i
      rfl
    rw [hc, ih]
    rfl

/-- Closed form of the loop on valid input: the final store is the initial
store followed by the tagged copies, and the collected references point at
those copies, in order. -/
theorem combineRefLoop_spec (entries : List (String × Ref)) :
    ∀ (σ : Store) (acc : List Ref),
    (∀ e ∈ entries, e.2 < σ.length ∧ (storeRead σ e.2).empty = false) →
    combineRefLoop entries σ acc
      = .ok (σ ++ entries.map (fun e => taggedDf (e.1, storeRead σ e.2)),
             acc ++ (List.range entries.length).map (fun i => σ.length + i)) := by
  induction entries with
  | nil =>
    intro σ acc _
    simp [combineRefLoop]
  | cons e rest ih =>
    intro σ acc hval
    obtain ⟨c, r⟩ := e
    have he := hval (c, r) (by simp)
    have hd : (storeRead σ r).empty = false := he.2
    show combineRefLoop ((c, r) :: rest) σ acc = _
    simp only [combineRefLoop, hd, Bool.false_eq_true, if_false, reduceIte]
    rw [storeRead_append_self σ (storeRead σ r), set_append_length]
    set t := (storeRead σ r).setConstCol "country" (.str c) with ht
    have hread : ∀ e2 ∈ rest, storeRead (σ ++ [t]) e2.2 = storeRead σ e2.2 := by
      intro e2 he2
      exact storeRead_append_left σ [t] e2.2 (hval e2 (by simp [he2])).1
    have hval2 : ∀ e2 ∈ rest, e2.2 < (σ ++ [t]).length ∧
        (storeRead (σ ++ [t]) e2.2).empty = false := by
      intro e2 he2
      refine ⟨?_, ?_⟩
      · have h2 := (hval e2 (by simp [he2])).1
        have h3 : (σ ++ [t]).length = σ.length + 1 := by simp
        have h4 : e2.2 < σ.length + 1 := Nat.lt_succ_of_lt h2
        rw [h3]
        exact h4
      · rw [hread e2 he2]
        exact (hval e2 (by simp [he2])).2
    rw [ih (σ ++ [t]) (acc ++ [σ.length]) hval2]
    have hmap : rest.map (fun e2 => taggedDf (e2.1, storeRead (σ ++ [t]) e2.2))
        = rest.map (fun e2 => taggedDf (e2.1, storeRead σ e2.2)) := by
      apply List.map_congr_left
      intro e2 he2
      rw [hread e2 he2]
    rw [hmap]
    have hstores : (σ ++ [t]) ++ rest.map (fun e2 => taggedDf (e2.1, storeRead σ e2.2))
        = σ ++ (taggedDf (c, storeRead σ r)
            :: rest.map (fun e2 => taggedDf (e2.1, storeRead σ e2.2))) := by
      simp [taggedDf]
    have hrefs : (acc ++ [σ.length])
          ++ (List.range rest.length).map (fun i => (σ ++ [t]).length + i)
        = acc ++ (List.range (rest.length + 1)).map (fun i => σ.length + i) := by
      rw [List.range_succ_eq_map, List.map_cons, List.map_map, List.append_assoc]
      have hc2 : ((fun i => σ.length + i) ∘ Nat.succ)
          = fun i => (σ ++ [t]).length + i := by
        funext i
        simp only [Function.comp, List.length_append, List.length_cons, List.length_nil]
        omega
      rw [hc2]
      rfl
    rw [hstores, hrefs]
    rfl

/-- C9: over the heap model, a successful combine call leaves every
pre-existing object — in particular every input table — unchanged (only the
freshly allocated copies and result are written), and the result object read
from the final store equals the pure combine of the inputs as read from the
initial store, so two calls sharing an input table cannot interfere. -/
theorem combine_ref_frame (entries : List (String × Ref)) (σ : Store)
    (hne : entries ≠ [])
    (hval : ∀ e ∈ entries, e.2 < σ.length ∧ (storeRead σ e.2).empty = false) :
    ∃ σ2 res,
      combine_country_data_ref entries σ = .ok (σ2, res) ∧
      (∀ i, i < σ.length → storeRead σ2 i = storeRead σ i) ∧
      storeRead σ2 res = combinedForm (entries.map (fun e => (e.1, storeRead σ e.2))) ∧
      combine_country_data (toPyEntries (entries.map (fun e => (e.1, storeRead σ e.2))))
        = .ok (storeRead σ2 res) := by
  set l := entries.map (fun e => (e.1, storeRead σ e.2)) with hl
  have hlne : l ≠ [] := by
    cases entries with
    | nil => exact absurd rfl hne
    | cons a as => simp [hl]
  have hlv : ∀ x ∈ l, x.2.empty = false := by
    intro x hx
    obtain ⟨e, he, rfl⟩ := List.mem_map.mp hx
    exact (hval e he).2
  have htags : entries.map (fun e => taggedDf (e.1, storeRead σ e.2)) = l.map taggedDf := by
    rw [hl, List.map_map]
    rfl
  have hloop := combineRefLoop_spec entries σ [] hval
  refine ⟨σ ++ l.map taggedDf ++ [combinedForm l], (σ ++ l.map taggedDf).length, ?_, ?_, ?_, ?_⟩
  · unfold combine_country_data_ref
    rw [hloop, htags]
    have hreads : ((List.range entries.length).map (fun i => σ.length + i)).map
        (storeRead (σ ++ l.map taggedDf)) = l.map taggedDf := by
      rw [List.map_map]
      have hlen : entries.length = (l.map taggedDf).length := by
        simp [hl]
      rw [hlen]
      have hc : (storeRead (σ ++ l.map taggedDf) ∘ fun i => σ.length + i)
          = fun i => (l.map taggedDf).getD i { cols := [], idx := [], rows := [] } := by
        funext i
        simp only [Function.comp, storeRead]
        rw [List.getD_append_right σ _ _ _ (by omega)]
        congr 1
        omega
      rw [hc, getD_range_map]
    show (match pdConcat ((([] : List Ref) ++ (List.range entries.length).map
        (fun i => σ.length + i)).map (storeRead (σ ++ l.map taggedDf))) with
      | Except.error e => Except.error e
      | Except.ok c => Except.ok ((σ ++ l.map taggedDf) ++ [c], (σ ++ l.map taggedDf).length))
      = Except.ok (σ ++ l.map taggedDf ++ [combinedForm l], (σ ++ l.map taggedDf).length)
    rw [List.nil_append, hreads, pdConcat_tagged l hlne]
  · intro i hi
    rw [List.append_assoc]
    exact storeRead_append_left σ _ i hi
  · exact storeRead_append_self (σ ++ l.map taggedDf) (combinedForm l)
  · rw [storeRead_append_self (σ ++ l.map taggedDf) (combinedForm l)]
    exact combine_toPyEntries l hlne hlv

/-- C9 witness: a concrete two-table store is untouched at its original
positions by a successful combine. -/
theorem combine_ref_frame_witness :
    ∃ σ2 res,
      combine_country_data_ref [("Japan", 0), ("Brazil", 1)] [dfJapan, dfBrazil]
        = .ok (σ2, res) ∧
      (∀ i, i < ([dfJapan, dfBrazil] : Store).length →
        storeRead σ2 i = storeRead [dfJapan, dfBrazil] i) ∧
      storeRead σ2 res = combinedForm ([("Japan", 0), ("Brazil", 1)].map
        (fun e => (e.1, storeRead [dfJapan, dfBrazil] e.2))) ∧
      combine_country_data (toPyEntries ([("Japan", 0), ("Brazil", 1)].map
          (fun e => (e.1, storeRead [dfJapan, dfBrazil] e.2))))
        = .ok (storeRead σ2 res) :=
  combine_ref_frame [("Japan", 0), ("Brazil", 1)] [dfJapan, dfBrazil]
    (by decide) (by decide)

/-! ### The dashboard loader (`app/utils.py`) -/

/-- The mapping handed to the combiner by
`load_and_combine_each_country_data`: the *full* ordered site-name list is
zipped against the list of tables that loaded successfully — pairing is
positional, not by origin. -/
def combineInput (pairs : List (String × String))
    (load_csv : String → Option DataFrame) : List (String × DataFrame) :=
  (pairs.map Prod.fst).zip ((pairs.map (fun p => load_csv p.2)).reduceOption)

/-- The loader `load_and_combine_each_country_data`: load each path (the row-source
returns a table or an absence signal), keep the tables that loaded, and
combine them under the zipped name assignment.  An empty load list, or an
empty combined table, yields the absence signal after an on-screen error;
an error raised by the combiner propagates (there is no handler around it). -/
def load_and_combine_each_country_data (pairs : List (String × String))
    (load_csv : String → Option DataFrame) : Except String (Option DataFrame) :=
  let dataframes := (pairs.map (fun p => load_csv p.2)).reduceOption
  if dataframes.isEmpty then .ok none
  else
    match combine_country_data (toPyEntries (combineInput pairs load_csv)) with
    | .error e => .error e
    | .ok c => if c.empty then .ok none else .ok (some c)

/-- C10: when an earlier site's file fails to load while a later site's file
succeeds, the zip pairs the later site's table with the earlier site's name:
on a two-site mapping whose first file fails and whose second loads a
non-empty table, the loaded table is combined under the *first* site's name,
every output row's country cell is the first site's name, and the second
site's name appears nowhere — the country column misidentifies provenance. -/
theorem load_and_combine_mislabels
    (n1 f1 n2 f2 : String) (load_csv : String → Option DataFrame) (d : DataFrame)
    (h1 : load_csv f1 = none) (h2 : load_csv f2 = some d)
    (hd : d.empty = false) :
    combineInput [(n1, f1), (n2, f2)] load_csv = [(n1, d)] ∧
    load_and_combine_each_country_data [(n1, f1), (n2, f2)] load_csv
      = .ok (some (combinedForm [(n1, d)])) ∧
    (∀ r ∈ (combinedForm [(n1, d)]).rows, Row.get r "country" = some (.str n1)) ∧
    (n2 ≠ n1 → ∀ r ∈ (combinedForm [(n1, d)]).rows,
      Row.get r "country" ≠ some (.str n2)) := by
  have hin : combineInput [(n1, f1), (n2, f2)] load_csv = [(n1, d)] := by
    unfold combineInput
    simp [h1, h2, List.reduceOption]
  have hrows : ∀ r ∈ (combinedForm [(n1, d)]).rows,
      Row.get r "country" = some (.str n1) := by
    intro r hr
    simp only [combinedForm, List.map_cons, List.map_nil] at hr
    rw [show ([d.rows.map (fun r => Row.set r "country" (.str n1))] : List (List Row)).flatten
        = d.rows.map (fun r => Row.set r "country" (.str n1)) by simp] at hr
    obtain ⟨r0, _, rfl⟩ := List.mem_map.mp hr
    exact Row.get_set_self r0 _ _
  refine ⟨hin, ?_, hrows, ?_⟩
  · have hload : ([(n1, f1), (n2, f2)].map
        (fun p : String × String => load_csv p.2)).reduceOption = [d] := by
      simp [h1, h2, List.reduceOption]
    unfold load_and_combine_each_country_data
    rw [hload, hin]
    have hcomb : combine_country_data (toPyEntries [(n1, d)])
        = .ok (combinedForm [(n1, d)]) := by
      apply combine_toPyEntries
      · exact fun hc => List.noConfusion hc
      · intro e he
        rw [List.mem_singleton.mp he]
        exact hd
    rw [hcomb]
    have hcne : (combinedForm [(n1, d)]).empty = false := by
      unfold DataFrame.empty
      have hrne : (combinedForm [(n1, d)]).rows.isEmpty = false := by
        simp only [combinedForm, List.map_cons, List.map_nil, List.flatten]
        have : d.rows.isEmpty = false := by
          unfold DataFrame.empty at hd
          exact (Bool.or_eq_false_iff.mp hd).1
        cases hrows2 : d.rows with
        | nil => rw [hrows2] at this; simp at this
        | cons a as => rfl
      have hcne2 : (combinedForm [(n1, d)]).cols.isEmpty = false := by
        have : "country" ∈ (combinedForm [(n1, d)]).cols := by
          simp only [combinedForm]
          exact (mem_unionCols _ _).mpr ⟨taggedDf (n1, d), by simp,
            (mem_taggedDf_cols (n1, d) _).mpr (Or.inl rfl)⟩
        cases hcols : (combinedForm [(n1, d)]).cols with
        | nil => rw [hcols] at this; cases this
        | cons a as => rfl
      rw [hrne, hcne2]
      rfl
    show (if (combinedForm [(n1, d)]).empty = true then Except.ok none
        else Except.ok (some (combinedForm [(n1, d)])))
      = Except.ok (some (combinedForm [(n1, d)]))
    rw [hcne]
    rfl
  · intro hne r hr hc
    have := hrows r hr
    rw [this] at hc
    have : n1 = n2 := by
      injection hc with h
      injection h
    exact hne this.symm

/-- The table loaded for the second site in the concrete scenario. -/
def togoDf : DataFrame :=
  { cols := ["GHI"], idx := [0], rows := [[("GHI", .num 5)]] }

/-- The concrete row-source: only the second site's file loads. -/
def loadOnlySecond : String → Option DataFrame :=
  fun s => if s = "togo.csv" then some togoDf else none

/-- C8 counterexample: an empty-string key passes the `isinstance(country,
str)` check, so the combine succeeds instead of raising the invalid-site-name
error the claim predicts. -/
theorem empty_string_key_counterexample :
    (combine_country_data [(PyObj.str "", PyObj.df dfJapan)]).isOk = true := by decide

/-- C8 (amended): only a non-string key raises the site-name error; the empty
string *is* a string, is accepted, and becomes the country label of the
entry's rows. -/
theorem empty_string_key_accepted (d : DataFrame) (hd : d.empty = false) :
    combine_country_data (toPyEntries [("", d)]) = .ok (combinedForm [("", d)]) ∧
    (∀ r ∈ (combinedForm [("", d)]).rows, Row.get r "country" = some (.str "")) := by
  refine ⟨combine_toPyEntries [("", d)] (fun hc => List.noConfusion hc)
    (fun e he => by rw [List.mem_singleton.mp he]; exact hd), ?_⟩
  intro r hr
  simp only [combinedForm, List.map_cons, List.map_nil] at hr
  rw [show ([d.rows.map (fun r => Row.set r "country" (.str ""))] : List (List Row)).flatten
      = d.rows.map (fun r => Row.set r "country" (.str "")) by simp] at hr
  obtain ⟨r0, _, rfl⟩ := List.mem_map.mp hr
  exact Row.get_set_self r0 _ _

/-- C8 amended-claim witness: a concrete empty-string-keyed entry combines
successfully. -/
theorem empty_string_key_accepted_witness :
    combine_country_data (toPyEntries [("", dfJapan)])
      = .ok (combinedForm [("", dfJapan)]) :=
  (empty_string_key_accepted dfJapan (by decide)).1

/-- C10 witness: with Benin's file failing and Togo's loading, Togo's rows
come back labelled Benin. -/
theorem load_and_combine_mislabels_witness :
    combineInput [("Benin", "benin.csv"), ("Togo", "togo.csv")] loadOnlySecond
        = [("Benin", togoDf)] ∧
    load_and_combine_each_country_data [("Benin", "benin.csv"), ("Togo", "togo.csv")]
        loadOnlySecond
      = .ok (some (combinedForm [("Benin", togoDf)])) ∧
    (∀ r ∈ (combinedForm [("Benin", togoDf)]).rows,
      Row.get r "country" = some (.str "Benin")) ∧
    ("Togo" ≠ "Benin" → ∀ r ∈ (combinedForm [("Benin", togoDf)]).rows,
      Row.get r "country" ≠ some (.str "Togo")) :=
  load_and_combine_mislabels "Benin" "benin.csv" "Togo" "togo.csv" loadOnlySecond togoDf
    (by decide) (by decide) (by decide)

end Solar
